import Mathlib

/-!
Verification of the type-graph resolver (`src/transpiler.ts`).

The resolver walks a statically resolved type graph and emits one builder
call per node.  The type-checker frontend is an external oracle: the
embedding represents a type-graph node as a record of the oracle's answers
(classification flags, structural children given by node ids, property
symbols), and a type graph as a total map from node ids to such records.
The caller-supplied builder is embedded as the initial algebra `IR`, so
every emitted builder call is visible as an `IR` constructor.  The source's
mutable `visited` map is threaded explicitly (only key membership is ever
observed by the source, so the embedding keeps the key list); its general
recursion is embedded with a fuel parameter, `Err.fuelOut` marking fuel
exhaustion and `Err.arrayElementMissing` marking the unchecked
`getTypeArguments(type)[0]` access on an array type with no type arguments.
The source's `'Not supported…' as any` string sentinels are embedded as the
`IR.sentinel` constructor.
-/

namespace Transpiler

/-- `ts.PseudoBigInt`: sign plus base-10 digit string. -/
structure PseudoBigInt where
  negative : Bool
  base10Value : String
  deriving DecidableEq, Repr

/-- The value carried by a literal type (`ts.LiteralType.value`:
string, number or pseudo-big-int). -/
inductive LiteralValue where
  | str (s : String)
  | num (n : Int)
  | pbig (p : PseudoBigInt)
  deriving DecidableEq, Repr

/-- The argument of `buildLiteral` (string, number, boolean, or the
pseudo-big-int that a `ts.LiteralType` value can pass through). -/
inductive Lit where
  | str (s : String)
  | num (n : Int)
  | boolean (b : Bool)
  | pbig (p : PseudoBigInt)
  deriving DecidableEq, Repr

/-- Conversion of a literal type's value into the `buildLiteral` argument
(the source passes `type.value` through unchanged). -/
def litOf : LiteralValue → Lit
  | .str s => .str s
  | .num n => .num n
  | .pbig p => .pbig p

/-- `TypeIdentification`: the per-pass id plus the display name. -/
structure TypeIdentification where
  id : Nat
  name : String
  deriving DecidableEq, Repr

/-- The key kind of an index signature (`'string' | 'number'`). -/
inductive IndexKind where
  | string
  | number
  deriving DecidableEq, Repr

/-- A property declaration site; the source only queries it for the
`private` modifier (`Types.hasModifier(decl, SyntaxKind.PrivateKeyword)`). -/
structure PropDecl where
  hasPrivateModifier : Bool
  deriving DecidableEq, Repr

/-- A property symbol (`ts.Symbol`), as the oracle answers about it.
`typeAtDecl` is the id of `checker.getTypeOfSymbolAtLocation(property,
property.declarations[0])`, the only location the source ever queries. -/
structure PropSym where
  name : String
  isPrototype : Bool
  declarations : List PropDecl
  isOptional : Bool
  isGetAccessor : Bool
  typeAtDecl : Nat
  deriving DecidableEq, Repr

/-- A type-graph node: the oracle's answers about one `ts.Type`.  The
classification flags are independent booleans (the oracle's predicates are
not mutually exclusive); structural children are node ids. -/
structure NodeData where
  /-- `checker.typeToString(type)`. -/
  name : String
  isBigIntLiteral : Bool
  /-- `type.value` when the node is a big-int literal. -/
  bigIntValue : PseudoBigInt
  isLiteral : Bool
  /-- `type.value`; `none` embeds `type.value == null`. -/
  literalValue : Option LiteralValue
  /-- The intrinsic marker distinguishing the `true` and `false` literals. -/
  intrinsicName : String
  isPrimitive : Bool
  isArray : Bool
  isTuple : Bool
  /-- `checker.getTypeArguments(type)`, as node ids. -/
  typeArguments : List Nat
  isEnum : Bool
  /-- `type.types` (enum / union / intersection members), as node ids. -/
  types : List Nat
  /-- `type.symbol.escapedName` (used for enum member names). -/
  symbolEscapedName : String
  isObject : Bool
  /-- `type.getStringIndexType()`, as a node id. -/
  stringIndexType : Option Nat
  /-- `type.getNumberIndexType()`, as a node id. -/
  numberIndexType : Option Nat
  /-- The values of `type.symbol.exports` (static members of classes). -/
  symbolExports : List PropSym
  /-- `checker.getPropertiesOfType(type)`. -/
  propertiesOfType : List PropSym
  /-- The number of declarations of `type.symbol`; `none` embeds
  `symbol.getDeclarations()` returning `undefined`. -/
  symbolDeclarations : Option Nat
  isGenericType : Bool
  isUnion : Bool
  isIntersection : Bool
  isUndefined : Bool
  isFunctionLike : Bool
  deriving Repr

/-- A type graph: a total assignment of oracle answers to node ids. -/
def TypeGraph : Type := Nat → NodeData

/-- The resolved property record pushed by the property loop
(`ResolvedProperty<T>` in the source). -/
structure ResolvedProperty (T : Type) where
  isOptional : Bool
  maybeUndefined : Bool
  name : String
  resolvedType : T

/-- The builder calls as an initial algebra: one constructor per `Module`
operation, plus `sentinel` for the source's `'Not supported…' as any`
string returns. -/
inductive IR where
  | any
  | date
  | primitive (typeString : String)
  | array (resolvedType : IR)
  | tuple (resolvedTypes : List IR)
  | union (resolvedTypes : List IR)
  | intersection (resolvedTypes : List IR)
  | enum (resolvedTypes : List (String × IR))
  | literal (value : Lit)
  | object (properties : List (ResolvedProperty IR)) (type : TypeIdentification)
  | reference (type : TypeIdentification)
  | indexableObject (resolvedType : IR) (kind : IndexKind)
  | sentinel (s : String)

/-- The possible failures of the embedded resolver: `fuelOut` is the fuel
artefact of embedding general recursion; `arrayElementMissing` embeds the
runtime failure of `checker.getTypeArguments(type)[0]` when an array node
reports no type arguments. -/
inductive Err where
  | fuelOut
  | arrayElementMissing
  deriving DecidableEq, Repr

/-- `visited.set(typeId, identification)` observed at the key level: the
id becomes (or stays) a member. -/
def vadd (visited : List Nat) (typeId : Nat) : List Nat :=
  if typeId ∈ visited then visited else typeId :: visited

/-- `visited.delete(typeId)` observed at the key level: the id is removed. -/
def vdelete (visited : List Nat) (typeId : Nat) : List Nat :=
  visited.filter (fun i => i ≠ typeId)

/-- `getIndexType`: the string index signature first, then the number one
(`transpiler.ts` lines 159-167). -/
def getIndexType (type : NodeData) : Option (IndexKind × Nat) :=
  match type.stringIndexType with
  | some stringIndexType => some (.string, stringIndexType)
  | none =>
    match type.numberIndexType with
    | some numberIndexType => some (.number, numberIndexType)
    | none => none

/-- `getClassStaticDeclarations`: the values of `symbol.exports`
(`transpiler.ts` lines 150-157). -/
def getClassStaticDeclarations (type : NodeData) : List PropSym :=
  type.symbolExports

/-- Modelled from the spec: `Types.isDate` (module `./types`, not under
`src/`) — "is-date (by display-name match, not structural kind)", "display
name equals the date type's canonical name". -/
def isDate (typeString : String) : Bool :=
  typeString == "Date"

/-- Modelled from the spec: `Types.isDefined` (module `./types`, not under
`src/`) — "is-defined (not the literal `undefined`)". -/
def isDefined (g : TypeGraph) (t : Nat) : Bool :=
  !(g t).isUndefined

/-- Modelled from the spec: the boolean `true` literal — a literal that
"carries no explicit value", "distinguished only by an intrinsic marker". -/
def isTrueLiteral (g : TypeGraph) (t : Nat) : Bool :=
  (g t).isLiteral && (g t).literalValue.isNone && (g t).intrinsicName == "true"

/-- Modelled from the spec: the boolean `false` literal. -/
def isFalseLiteral (g : TypeGraph) (t : Nat) : Bool :=
  (g t).isLiteral && (g t).literalValue.isNone && (g t).intrinsicName == "false"

/-- Modelled from the spec: `Types.isUnionBoolean` (module `./types`, not
under `src/`) — "if the remaining members are exactly the boolean-true and
boolean-false literals", "in either order". -/
def isUnionBoolean (g : TypeGraph) (definedTypes : List Nat) : Bool :=
  match definedTypes with
  | [a, b] =>
    (isTrueLiteral g a && isFalseLiteral g b) ||
      (isFalseLiteral g a && isTrueLiteral g b)
  | _ => false

/-- The `maybeUndefined` oracle test of the property loop:
`Types.isUnion(propertyType) && propertyType.types.some(isUndefined)`
(`transpiler.ts` lines 245-246). -/
def maybeUndef (g : TypeGraph) (propertyType : Nat) : Bool :=
  (g propertyType).isUnion && (g propertyType).types.any fun part => (g part).isUndefined

mutual

/-- The `recursion` closure of `resolveTypeNode` (`transpiler.ts` lines
171-268), embedded with explicit fuel and explicit threading of the
`visited` map's key set.  Branch order and branch bodies follow the source
line by line. -/
def recursion (g : TypeGraph) : Nat → List Nat → Nat → Except Err (IR × List Nat)
  | 0, _, _ => .error .fuelOut
  | fuel + 1, visited, typeId =>
    if (g typeId).isBigIntLiteral then
      .ok (.literal (.str (if (g typeId).bigIntValue.negative then
        "-" ++ (g typeId).bigIntValue.base10Value else (g typeId).bigIntValue.base10Value)), visited)
    else if (g typeId).isLiteral then
      match (g typeId).literalValue with
      | none => .ok (.literal (.boolean ((g typeId).intrinsicName == "true")), visited)
      | some value => .ok (.literal (litOf value), visited)
    else if (g typeId).isPrimitive then
      .ok (.primitive (g typeId).name, visited)
    else if (g typeId).isArray then
      match (g typeId).typeArguments.head? with
      | none => .error .arrayElementMissing
      | some element =>
        match recursion g fuel visited element with
        | .error e => .error e
        | .ok (r, v1) => .ok (.array r, v1)
    else if (g typeId).isTuple then
      match recurseList g fuel visited (g typeId).typeArguments with
      | .error e => .error e
      | .ok (rs, v1) => .ok (.tuple rs, v1)
    else if (g typeId).isEnum then
      match recurseEnum g fuel visited (g typeId).types with
      | .error e => .error e
      | .ok (rs, v1) => .ok (.enum rs, v1)
    else if isDate (g typeId).name then
      .ok (.date, visited)
    else if (g typeId).isObject then
      if typeId ∈ visited then
        .ok (.reference ⟨typeId, (g typeId).name⟩, visited)
      else
        match getIndexType (g typeId) with
        | some (kind, indexType) =>
          match recursion g fuel (vadd visited typeId) indexType with
          | .error e => .error e
          | .ok (r, v1) => .ok (.indexableObject r kind, v1)
        | none =>
          match (g typeId).symbolDeclarations with
          | none => .ok (.object [] ⟨typeId, (g typeId).name⟩, visited)
          | some 0 =>
            .ok (.sentinel "Not supported - declarations of length 0 for symbol", visited)
          | some (_ + 1) =>
            match recurseProps g fuel (vadd visited typeId)
                ((g typeId).propertiesOfType ++ getClassStaticDeclarations (g typeId)) with
            | .error e => .error e
            | .ok (resolvedProperties, v2) =>
              .ok (.object resolvedProperties ⟨typeId, (g typeId).name⟩, vdelete v2 typeId)
    else if (g typeId).isGenericType then
      .ok (.any, visited)
    else if (g typeId).isUnion then
      if isUnionBoolean g ((g typeId).types.filter fun t => isDefined g t) then
        .ok (.primitive "boolean", visited)
      else
        match recurseList g fuel visited ((g typeId).types.filter fun t => isDefined g t) with
        | .error e => .error e
        | .ok (rs, v1) => .ok (.union rs, v1)
    else if (g typeId).isIntersection then
      match recurseList g fuel visited (g typeId).types with
      | .error e => .error e
      | .ok (rs, v1) => .ok (.intersection rs, v1)
    else
      .ok (.sentinel "Not supported", visited)
termination_by fuel _ _ => (fuel, 0)

/-- Left-to-right resolution of a list of member ids (the `.map(recursion)`
calls of the tuple, union and intersection branches), threading `visited`. -/
def recurseList (g : TypeGraph) : Nat → List Nat → List Nat → Except Err (List IR × List Nat)
  | _, visited, [] => .ok ([], visited)
  | fuel, visited, t :: ts =>
    match recursion g fuel visited t with
    | .error e => .error e
    | .ok (r, v1) =>
      match recurseList g fuel v1 ts with
      | .error e => .error e
      | .ok (rs, v2) => .ok (r :: rs, v2)
termination_by fuel _ ts => (fuel, ts.length + 1)

/-- The enum branch's `type.types.map(t => [t.symbol.escapedName,
recursion(t)])`, threading `visited`. -/
def recurseEnum (g : TypeGraph) : Nat → List Nat → List Nat → Except Err (List (String × IR) × List Nat)
  | _, visited, [] => .ok ([], visited)
  | fuel, visited, t :: ts =>
    match recursion g fuel visited t with
    | .error e => .error e
    | .ok (r, v1) =>
      match recurseEnum g fuel v1 ts with
      | .error e => .error e
      | .ok (rs, v2) => .ok (((g t).symbolEscapedName, r) :: rs, v2)
termination_by fuel _ ts => (fuel, ts.length + 1)

/-- The property loop (`properties.forEach`, `transpiler.ts` lines
228-250).  A skipped property is a plain `return` of the `forEach`
callback — including the `'Not supported - undefined property
declarations'` string, which `forEach` discards, so a declaration-less
property is silently skipped. -/
def recurseProps (g : TypeGraph) : Nat → List Nat → List PropSym → Except Err (List (ResolvedProperty IR) × List Nat)
  | _, visited, [] => .ok ([], visited)
  | fuel, visited, property :: rest =>
    if property.isPrototype then recurseProps g fuel visited rest
    else
      match property.declarations.head? with
      | none => recurseProps g fuel visited rest
      | some propertyDeclaration =>
        if (g property.typeAtDecl).isObject && (g property.typeAtDecl).isFunctionLike then
          recurseProps g fuel visited rest
        else if property.isGetAccessor then
          recurseProps g fuel visited rest
        else if propertyDeclaration.hasPrivateModifier then
          recurseProps g fuel visited rest
        else
          match recursion g fuel visited property.typeAtDecl with
          | .error e => .error e
          | .ok (r, v1) =>
            match recurseProps g fuel v1 rest with
            | .error e => .error e
            | .ok (rs, v2) =>
              .ok ({ isOptional := property.isOptional,
                     maybeUndefined := maybeUndef g property.typeAtDecl,
                     name := property.name,
                     resolvedType := r } :: rs, v2)
termination_by fuel _ ps => (fuel, ps.length + 1)

end

/-- `resolveTypeNode` (`transpiler.ts` lines 146, 169-170, 270): one
top-level resolution pass, starting from a fresh, empty visited map. -/
def resolveTypeNode (g : TypeGraph) (fuel : Nat) (startNode : Nat) : Except Err (IR × List Nat) :=
  recursion g fuel [] startNode

/-! ## Visited-set helpers -/

theorem mem_vadd {v : List Nat} {i : Nat} (t : Nat) (hi : i ∈ v) : i ∈ vadd v t := by
  unfold vadd; split <;> simp [hi]

theorem mem_vadd_self (v : List Nat) (t : Nat) : t ∈ vadd v t := by
  unfold vadd; split <;> simp [*]

theorem mem_vdelete {v : List Nat} {i t : Nat} (hi : i ∈ v) (hne : i ≠ t) : i ∈ vdelete v t := by
  simp [vdelete, hi, hne]

theorem not_mem_vdelete_self (v : List Nat) (t : Nat) : t ∉ vdelete v t := by
  simp [vdelete]

theorem mem_ne_of_not_mem {i t : Nat} {v : List Nat} (hi : i ∈ v) (ht : t ∉ v) : i ≠ t :=
  fun he => ht (he ▸ hi)

/-- Monotonicity of the visited set: a successful call of any of the four
mutual functions never loses a previously present id (the only deletion,
`visited.delete(typeId)`, concerns an id that was absent at entry of its
own call and added by it). -/
theorem recursion_visited_mono (g : TypeGraph) :
    (∀ fuel v t, ∀ r v', recursion g fuel v t = .ok (r, v') → ∀ i, i ∈ v → i ∈ v') ∧
    (∀ fuel v ps, ∀ rs v', recurseProps g fuel v ps = .ok (rs, v') → ∀ i, i ∈ v → i ∈ v') ∧
    (∀ fuel v ts, ∀ rs v', recurseEnum g fuel v ts = .ok (rs, v') → ∀ i, i ∈ v → i ∈ v') ∧
    (∀ fuel v ts, ∀ rs v', recurseList g fuel v ts = .ok (rs, v') → ∀ i, i ∈ v → i ∈ v') := by
  apply recursion.mutual_induct g <;> intros
  all_goals rename_i h i hi
  all_goals simp only [recursion, recurseProps, recurseEnum, recurseList] at h
  all_goals try (simp [*] at h)
  all_goals try (obtain ⟨-, rfl⟩ := h; exact hi)
  all_goals try (obtain ⟨-, rfl⟩ := h)
  all_goals try solve_by_elim [mem_vadd, mem_vdelete, mem_ne_of_not_mem]
  all_goals (refine mem_vdelete ?_ (mem_ne_of_not_mem hi (by assumption)); solve_by_elim [mem_vadd])

/-! ## Spec-side classification

The spec (§4.3) fixes an exact precedence order over the (overlapping)
oracle predicates.  `specClassify` is written from the spec's list, and
`specDispatch` gives, for each category, the builder call the spec
prescribes; comparing `recursion` against them checks the source's
`if`-chain against the spec's order. -/

/-- The twelve shape categories of spec §4.3, in the spec's order. -/
inductive Category where
  | bigIntLiteral
  | literal
  | primitive
  | array
  | tuple
  | enum
  | date
  | objectLike
  | generic
  | union
  | intersection
  | unsupported
  deriving DecidableEq, Repr

/-- First category whose predicate matches, in the spec's precedence order
(§4.3 steps 1-12). -/
def specClassify (type : NodeData) : Category :=
  if type.isBigIntLiteral then .bigIntLiteral
  else if type.isLiteral then .literal
  else if type.isPrimitive then .primitive
  else if type.isArray then .array
  else if type.isTuple then .tuple
  else if type.isEnum then .enum
  else if isDate type.name then .date
  else if type.isObject then .objectLike
  else if type.isGenericType then .generic
  else if type.isUnion then .union
  else if type.isIntersection then .intersection
  else .unsupported

/-- The builder call prescribed for each category: the handler of the
category selected by `specClassify`, independent of every other predicate
of the node. -/
def specDispatch (g : TypeGraph) (fuel : Nat) (visited : List Nat) (typeId : Nat) :
    Except Err (IR × List Nat) :=
  let type := g typeId
  let typeString := type.name
  let identification : TypeIdentification := ⟨typeId, typeString⟩
  match specClassify type with
  | .bigIntLiteral =>
    .ok (.literal (.str (if type.bigIntValue.negative then
      "-" ++ type.bigIntValue.base10Value else type.bigIntValue.base10Value)), visited)
  | .literal =>
    match type.literalValue with
    | none => .ok (.literal (.boolean (type.intrinsicName == "true")), visited)
    | some value => .ok (.literal (litOf value), visited)
  | .primitive => .ok (.primitive typeString, visited)
  | .array =>
    match type.typeArguments.head? with
    | none => .error .arrayElementMissing
    | some element =>
      match recursion g fuel visited element with
      | .error e => .error e
      | .ok (r, v1) => .ok (.array r, v1)
  | .tuple =>
    match recurseList g fuel visited type.typeArguments with
    | .error e => .error e
    | .ok (rs, v1) => .ok (.tuple rs, v1)
  | .enum =>
    match recurseEnum g fuel visited type.types with
    | .error e => .error e
    | .ok (rs, v1) => .ok (.enum rs, v1)
  | .date => .ok (.date, visited)
  | .objectLike =>
    if typeId ∈ visited then
      .ok (.reference identification, visited)
    else
      match getIndexType type with
      | some (kind, indexType) =>
        match recursion g fuel (vadd visited typeId) indexType with
        | .error e => .error e
        | .ok (r, v1) => .ok (.indexableObject r kind, v1)
      | none =>
        let properties := type.propertiesOfType ++ getClassStaticDeclarations type
        match type.symbolDeclarations with
        | none => .ok (.object [] identification, visited)
        | some 0 =>
          .ok (.sentinel "Not supported - declarations of length 0 for symbol", visited)
        | some (_ + 1) =>
          match recurseProps g fuel (vadd visited typeId) properties with
          | .error e => .error e
          | .ok (resolvedProperties, v2) =>
            .ok (.object resolvedProperties identification, vdelete v2 typeId)
  | .generic => .ok (.any, visited)
  | .union =>
    let definedTypes := type.types.filter fun t => isDefined g t
    if isUnionBoolean g definedTypes then
      .ok (.primitive "boolean", visited)
    else
      match recurseList g fuel visited definedTypes with
      | .error e => .error e
      | .ok (rs, v1) => .ok (.union rs, v1)
  | .intersection =>
    match recurseList g fuel visited type.types with
    | .error e => .error e
    | .ok (rs, v1) => .ok (.intersection rs, v1)
  | .unsupported => .ok (.sentinel "Not supported", visited)

/-- C1: the resolver classifies every node by testing the categories in the
spec's precedence order (big-integer literal, literal, primitive, array,
tuple, enum, date, object-like, generic, union, intersection), and the
builder call emitted for a node is the handler of the first category whose
predicate matches, even when later predicates also match: one step of
`recursion` coincides with dispatching on `specClassify`. -/
theorem dispatch_follows_spec_precedence (g : TypeGraph) (fuel : Nat)
    (visited : List Nat) (typeId : Nat) :
    recursion g (fuel + 1) visited typeId = specDispatch g fuel visited typeId := by
  unfold recursion specDispatch specClassify
  by_cases h1 : (g typeId).isBigIntLiteral = true
  · simp only [if_pos h1]
  simp only [if_neg h1]
  by_cases h2 : (g typeId).isLiteral = true
  · simp only [if_pos h2]
  simp only [if_neg h2]
  by_cases h3 : (g typeId).isPrimitive = true
  · simp only [if_pos h3]
  simp only [if_neg h3]
  by_cases h4 : (g typeId).isArray = true
  · simp only [if_pos h4]
  simp only [if_neg h4]
  by_cases h5 : (g typeId).isTuple = true
  · simp only [if_pos h5]
  simp only [if_neg h5]
  by_cases h6 : (g typeId).isEnum = true
  · simp only [if_pos h6]
  simp only [if_neg h6]
  by_cases h7 : isDate (g typeId).name = true
  · simp only [if_pos h7]
  simp only [if_neg h7]
  by_cases h8 : (g typeId).isObject = true
  · simp only [if_pos h8]
  simp only [if_neg h8]
  by_cases h9 : (g typeId).isGenericType = true
  · simp only [if_pos h9]
  simp only [if_neg h9]
  by_cases h10 : (g typeId).isUnion = true
  · simp only [if_pos h10]
  simp only [if_neg h10]
  by_cases h11 : (g typeId).isIntersection = true
  · simp only [if_pos h11]
  simp only [if_neg h11]

/-! ## Branch-condition bundles and one-step branch equations -/

/-- The node is dispatched by step 8 (object-like): every earlier predicate
is false and `isObject` holds. -/
def isObjectDispatch (g : TypeGraph) (t : Nat) : Bool :=
  !(g t).isBigIntLiteral && !(g t).isLiteral && !(g t).isPrimitive && !(g t).isArray &&
    !(g t).isTuple && !(g t).isEnum && !(isDate (g t).name) && (g t).isObject

/-- The node is dispatched by step 10 (union): every earlier predicate is
false and `isUnion` holds. -/
def isUnionDispatch (g : TypeGraph) (t : Nat) : Bool :=
  !(g t).isBigIntLiteral && !(g t).isLiteral && !(g t).isPrimitive && !(g t).isArray &&
    !(g t).isTuple && !(g t).isEnum && !(isDate (g t).name) && !(g t).isObject &&
    !(g t).isGenericType && (g t).isUnion

/-- Re-entry on an object-like node whose id is still in the visited set:
a `reference(identity)` and nothing else. -/
theorem recursion_reference_eq (g : TypeGraph) (fuel : Nat) (v : List Nat) (t : Nat)
    (hd : isObjectDispatch g t = true) (hv : t ∈ v) :
    recursion g (fuel + 1) v t = .ok (.reference ⟨t, (g t).name⟩, v) := by
  simp only [isObjectDispatch, Bool.and_eq_true, Bool.not_eq_true'] at hd
  obtain ⟨⟨⟨⟨⟨⟨⟨h1, h2⟩, h3⟩, h4⟩, h5⟩, h6⟩, h7⟩, h8⟩ := hd
  simp [recursion, h1, h2, h3, h4, h5, h6, h7, h8, hv]

/-- Fresh entry on an object-like node with an index signature: the id is
marked visited and the index value type is resolved into
`indexableObject(·, kind)`. -/
theorem recursion_indexable_eq (g : TypeGraph) (fuel : Nat) (v : List Nat) (t : Nat)
    (hd : isObjectDispatch g t = true) (hv : t ∉ v) (kind : IndexKind) (it : Nat)
    (hidx : getIndexType (g t) = some (kind, it)) :
    recursion g (fuel + 1) v t =
      match recursion g fuel (vadd v t) it with
      | .error e => .error e
      | .ok (r, v1) => .ok (.indexableObject r kind, v1) := by
  simp only [isObjectDispatch, Bool.and_eq_true, Bool.not_eq_true'] at hd
  obtain ⟨⟨⟨⟨⟨⟨⟨h1, h2⟩, h3⟩, h4⟩, h5⟩, h6⟩, h7⟩, h8⟩ := hd
  simp [recursion, h1, h2, h3, h4, h5, h6, h7, h8, hv, hidx]

/-- Fresh entry on an object-like node without index signature whose symbol
has declarations: the id is marked visited, the properties are expanded,
the id is unmarked, and `object(properties, identity)` is emitted. -/
theorem recursion_object_eq (g : TypeGraph) (fuel : Nat) (v : List Nat) (t : Nat)
    (hd : isObjectDispatch g t = true) (hv : t ∉ v)
    (hidx : getIndexType (g t) = none) (n : Nat)
    (hdecl : (g t).symbolDeclarations = some (n + 1)) :
    recursion g (fuel + 1) v t =
      match recurseProps g fuel (vadd v t)
          ((g t).propertiesOfType ++ getClassStaticDeclarations (g t)) with
      | .error e => .error e
      | .ok (resolvedProperties, v2) =>
        .ok (.object resolvedProperties ⟨t, (g t).name⟩, vdelete v2 t) := by
  simp only [isObjectDispatch, Bool.and_eq_true, Bool.not_eq_true'] at hd
  obtain ⟨⟨⟨⟨⟨⟨⟨h1, h2⟩, h3⟩, h4⟩, h5⟩, h6⟩, h7⟩, h8⟩ := hd
  simp [recursion, h1, h2, h3, h4, h5, h6, h7, h8, hv, hidx, hdecl]

/-- Fresh entry on an object-like node without index signature whose symbol
has no declaration list: the empty-shell `object([], identity)`. -/
theorem recursion_object_noDecls_eq (g : TypeGraph) (fuel : Nat) (v : List Nat) (t : Nat)
    (hd : isObjectDispatch g t = true) (hv : t ∉ v)
    (hidx : getIndexType (g t) = none)
    (hdecl : (g t).symbolDeclarations = none) :
    recursion g (fuel + 1) v t = .ok (.object [] ⟨t, (g t).name⟩, v) := by
  simp only [isObjectDispatch, Bool.and_eq_true, Bool.not_eq_true'] at hd
  obtain ⟨⟨⟨⟨⟨⟨⟨h1, h2⟩, h3⟩, h4⟩, h5⟩, h6⟩, h7⟩, h8⟩ := hd
  simp [recursion, h1, h2, h3, h4, h5, h6, h7, h8, hv, hidx, hdecl]

/-- One step of the union branch: undefined members are filtered out, the
boolean union collapses, and otherwise the remaining members are resolved
into `union(...)`. -/
theorem recursion_union_eq (g : TypeGraph) (fuel : Nat) (v : List Nat) (t : Nat)
    (hd : isUnionDispatch g t = true) :
    recursion g (fuel + 1) v t =
      if isUnionBoolean g ((g t).types.filter fun m => isDefined g m) then
        .ok (.primitive "boolean", v)
      else
        match recurseList g fuel v ((g t).types.filter fun m => isDefined g m) with
        | .error e => .error e
        | .ok (rs, v1) => .ok (.union rs, v1) := by
  simp only [isUnionDispatch, Bool.and_eq_true, Bool.not_eq_true'] at hd
  obtain ⟨⟨⟨⟨⟨⟨⟨⟨⟨h1, h2⟩, h3⟩, h4⟩, h5⟩, h6⟩, h7⟩, h8⟩, h9⟩, h10⟩ := hd
  simp [recursion, h1, h2, h3, h4, h5, h6, h7, h8, h9, h10]

/-! ## A concrete type graph used to instantiate the theorems -/

/-- A node with every oracle answer at its default (all predicates false). -/
def defaultNode : NodeData where
  name := "unknown"
  isBigIntLiteral := false
  bigIntValue := ⟨false, "0"⟩
  isLiteral := false
  literalValue := none
  intrinsicName := ""
  isPrimitive := false
  isArray := false
  isTuple := false
  typeArguments := []
  isEnum := false
  types := []
  symbolEscapedName := ""
  isObject := false
  stringIndexType := none
  numberIndexType := none
  symbolExports := []
  propertiesOfType := []
  symbolDeclarations := none
  isGenericType := false
  isUnion := false
  isIntersection := false
  isUndefined := false
  isFunctionLike := false

def protoProp : PropSym := ⟨"prototype", true, [⟨false⟩], false, false, 1⟩

def undeclaredProp : PropSym := ⟨"ghost", false, [], false, false, 1⟩

def methodProp : PropSym := ⟨"method", false, [⟨false⟩], false, false, 12⟩

def getterProp : PropSym := ⟨"getter", false, [⟨false⟩], false, true, 1⟩

def privateProp : PropSym := ⟨"secret", false, [⟨true⟩], false, false, 1⟩

def aProp : PropSym := ⟨"a", false, [⟨false⟩], false, false, 1⟩

def bProp : PropSym := ⟨"b", false, [⟨false⟩], true, false, 5⟩

/-- Node 0 of the concrete graph: an object with one property of every
filtered kind plus two kept ones. -/
def shapeNode : NodeData :=
  { defaultNode with
      name := "Shape"
      isObject := true
      symbolDeclarations := some 1
      propertiesOfType := [protoProp, undeclaredProp, methodProp, getterProp,
        privateProp, aProp, bProp] }

def numberNode : NodeData :=
  { defaultNode with name := "number", isPrimitive := true }

def undefinedNode : NodeData :=
  { defaultNode with name := "undefined", isPrimitive := true, isUndefined := true }

def trueLitNode : NodeData :=
  { defaultNode with name := "true", isLiteral := true, intrinsicName := "true" }

def falseLitNode : NodeData :=
  { defaultNode with name := "false", isLiteral := true, intrinsicName := "false" }

def maybeUndefUnionNode : NodeData :=
  { defaultNode with name := "number | undefined", isUnion := true, types := [2, 1] }

def booleanUnionNode : NodeData :=
  { defaultNode with name := "boolean", isUnion := true, types := [3, 4] }

def dictNode : NodeData :=
  { defaultNode with
      name := "Dict"
      isObject := true
      stringIndexType := some 1
      numberIndexType := some 1
      symbolDeclarations := some 1
      propertiesOfType := [⟨"named", false, [⟨false⟩], false, false, 1⟩] }

def noDeclNode : NodeData :=
  { defaultNode with name := "NoDecl", isObject := true }

def arrayNode : NodeData :=
  { defaultNode with name := "number[]", isArray := true, typeArguments := [1] }

def selfRefNode : NodeData :=
  { defaultNode with
      name := "Node"
      isObject := true
      symbolDeclarations := some 1
      propertiesOfType := [⟨"value", false, [⟨false⟩], false, false, 1⟩,
        ⟨"next", false, [⟨false⟩], true, false, 10⟩] }

def weirdNode : NodeData :=
  { defaultNode with name := "Weird" }

def functionNode : NodeData :=
  { defaultNode with
      name := "() => void"
      isObject := true
      isFunctionLike := true
      symbolDeclarations := some 1 }

/-- A small concrete type graph exercising every branch (ids as in the node
definitions above). -/
def gW : TypeGraph := fun i =>
  match i with
  | 0 => shapeNode
  | 1 => numberNode
  | 2 => undefinedNode
  | 3 => trueLitNode
  | 4 => falseLitNode
  | 5 => maybeUndefUnionNode
  | 6 => booleanUnionNode
  | 7 => dictNode
  | 8 => noDeclNode
  | 9 => arrayNode
  | 10 => selfRefNode
  | 11 => weirdNode
  | 12 => functionNode
  | _ => defaultNode

/-! ## Claims -/

/-- Claim C9: for an object-like node without index signature whose backing
symbol has no declarations, the resolver emits the empty shell
`object([], identity)` — a successful IR value, not a failure and not a
sentinel. -/
theorem undeclared_symbol_empty_object (g : TypeGraph) (fuel : Nat) (v : List Nat) (t : Nat)
    (hd : isObjectDispatch g t = true) (hv : t ∉ v)
    (hidx : getIndexType (g t) = none)
    (hdecl : (g t).symbolDeclarations = none) :
    recursion g (fuel + 1) v t = .ok (.object [] ⟨t, (g t).name⟩, v) :=
  recursion_object_noDecls_eq g fuel v t hd hv hidx hdecl

theorem undeclared_symbol_empty_object_witness :
    recursion gW 1 [] 8 = .ok (.object [] ⟨8, "NoDecl"⟩, []) :=
  undeclared_symbol_empty_object gW 0 [] 8 (by decide) (by decide) (by decide) (by decide)

/-- Claim C3: an object-like node exposing an index signature resolves, on
fresh entry, to `indexableObject(resolved value type, keyKind)`; a string
index signature wins over a number one; and such a node never yields an
`object(...)` build (so its named properties are never enumerated). -/
theorem indexable_precedence (g : TypeGraph) (fuel : Nat) (v : List Nat) (t : Nat)
    (hd : isObjectDispatch g t = true)
    (kind : IndexKind) (it : Nat) (hidx : getIndexType (g t) = some (kind, it)) :
    (t ∉ v → recursion g (fuel + 1) v t =
      match recursion g fuel (vadd v t) it with
      | .error e => .error e
      | .ok (r, v1) => .ok (.indexableObject r kind, v1))
    ∧ (∀ s, (g t).stringIndexType = some s → kind = .string ∧ it = s)
    ∧ (∀ props idn v', recursion g (fuel + 1) v t ≠ .ok (.object props idn, v')) := by
  refine ⟨fun hv => recursion_indexable_eq g fuel v t hd hv kind it hidx, ?_, ?_⟩
  · intro s hs
    rw [getIndexType, hs] at hidx
    simp at hidx
    exact ⟨hidx.1.symm, hidx.2.symm⟩
  · intro props idn v'
    by_cases hv : t ∈ v
    · rw [recursion_reference_eq g fuel v t hd hv]
      simp
    · rw [recursion_indexable_eq g fuel v t hd hv kind it hidx]
      cases recursion g fuel (vadd v t) it with
      | error e => simp
      | ok p => cases p with | mk r v1 => simp

theorem indexable_precedence_witness :
    recursion gW 2 [] 7 = .ok (.indexableObject (.primitive "number") .string, [7]) ∧
    (∀ props idn v', recursion gW 2 [] 7 ≠ .ok (.object props idn, v')) := by
  have h := indexable_precedence gW 1 [] 7 (by decide) .string 1 (by decide)
  refine ⟨?_, h.2.2⟩
  rw [h.1 (by decide)]
  simp [recursion, gW, numberNode, defaultNode, vadd]

/-- Claim C7: a union node whose members, after removing undefined members,
are exactly the boolean true-literal and false-literal — in either order —
resolves to `primitive("boolean")`, never a two-member union. -/
theorem boolean_union_collapse (g : TypeGraph) (fuel : Nat) (v : List Nat) (t : Nat)
    (hd : isUnionDispatch g t = true) (a b : Nat)
    (hm : ((g t).types.filter fun m => isDefined g m) = [a, b])
    (hab : (isTrueLiteral g a = true ∧ isFalseLiteral g b = true) ∨
      (isFalseLiteral g a = true ∧ isTrueLiteral g b = true)) :
    recursion g (fuel + 1) v t = .ok (.primitive "boolean", v) := by
  have hb : isUnionBoolean g ((g t).types.filter fun m => isDefined g m) = true := by
    rw [hm]
    rcases hab with ⟨h1, h2⟩ | ⟨h1, h2⟩ <;> simp [isUnionBoolean, h1, h2]
  rw [recursion_union_eq g fuel v t hd, if_pos hb]

theorem boolean_union_collapse_witness :
    recursion gW 1 [] 6 = .ok (.primitive "boolean", []) :=
  boolean_union_collapse gW 0 [] 6 (by decide) 3 4 (by decide) (by decide)

/-- Claim C6 (documents the defect): at a node matching none of the eleven
classification predicates the source does not fail with an
`UnsupportedTypeShape` error — it returns the string `'Not supported'`
coerced to the IR type (`transpiler.ts` line 267), embedded here as
`IR.sentinel`. -/
theorem unsupported_shape_sentinel :
    recursion gW 1 [] 11 = .ok (.sentinel "Not supported", []) := by
  simp [recursion, gW, weirdNode, defaultNode, isDate]

/-- Claim C4: a resolved property whose declared type is a union containing
an explicit undefined member gets `maybeUndefined = true`, and its
`resolvedType` is built from the union with every undefined member removed
— no member passed to `buildUnion` is the undefined type. -/
theorem undefined_filtering (g : TypeGraph) (fuel : Nat) (v : List Nat)
    (p : PropSym) (rest : List PropSym) (d : PropDecl)
    (hproto : p.isPrototype = false)
    (hdecl : p.declarations.head? = some d)
    (hfn : ((g p.typeAtDecl).isObject && (g p.typeAtDecl).isFunctionLike) = false)
    (hacc : p.isGetAccessor = false)
    (hpriv : d.hasPrivateModifier = false)
    (hu : (g p.typeAtDecl).isUnion = true)
    (hundef : ((g p.typeAtDecl).types.any fun m => (g m).isUndefined) = true) :
    (∀ rs v2, recurseProps g fuel v (p :: rest) = .ok (rs, v2) →
      ∃ r v1 rs', recursion g fuel v p.typeAtDecl = .ok (r, v1) ∧
        recurseProps g fuel v1 rest = .ok (rs', v2) ∧
        rs = { isOptional := p.isOptional, maybeUndefined := true,
               name := p.name, resolvedType := r } :: rs')
    ∧ (isUnionDispatch g p.typeAtDecl = true →
        isUnionBoolean g ((g p.typeAtDecl).types.filter fun m => isDefined g m) = false →
        recursion g (fuel + 1) v p.typeAtDecl =
          match recurseList g fuel v ((g p.typeAtDecl).types.filter fun m => isDefined g m) with
          | .error e => .error e
          | .ok (rs, v1) => .ok (.union rs, v1))
    ∧ (∀ m, m ∈ ((g p.typeAtDecl).types.filter fun m => isDefined g m) →
        (g m).isUndefined = false) := by
  refine ⟨?_, ?_, ?_⟩
  · intro rs v2 h
    simp only [recurseProps, hproto, hdecl, hfn, hacc, hpriv] at h
    simp only [Bool.false_eq_true, if_false] at h
    split at h
    next e heq => cases h
    next r v1 heq =>
      split at h
      next e heq2 => cases h
      next rs' v2' heq2 =>
        simp only [Except.ok.injEq, Prod.mk.injEq] at h
        obtain ⟨hrs, hv2⟩ := h
        subst hv2
        refine ⟨r, v1, rs', heq, heq2, ?_⟩
        rw [← hrs]
        simp [maybeUndef, hu, hundef]
  · intro hud hnb
    rw [recursion_union_eq g fuel v p.typeAtDecl hud, if_neg]
    simp [hnb]
  · intro m hm
    rw [List.mem_filter] at hm
    have := hm.2
    simpa [isDefined] using this

theorem undefined_filtering_witness :
    ∃ r v1 rs', recursion gW 2 [] bProp.typeAtDecl = .ok (r, v1) ∧
      recurseProps gW 2 v1 [] = .ok (rs', []) ∧
      ([{ isOptional := true, maybeUndefined := true, name := "b",
          resolvedType := .union [.primitive "number"] }] : List (ResolvedProperty IR)) =
        { isOptional := bProp.isOptional, maybeUndefined := true,
          name := bProp.name, resolvedType := r } :: rs' := by
  have h := undefined_filtering gW 2 [] bProp [] ⟨false⟩ (by decide) (by decide)
    (by decide) (by decide) (by decide) (by decide) (by decide)
  refine h.1 _ [] ?_
  simp [recurseProps, recursion, recurseList, gW, bProp, maybeUndefUnionNode, numberNode,
    undefinedNode, defaultNode, maybeUndef, isDefined, isUnionBoolean, isTrueLiteral,
    isFalseLiteral, isDate, vadd]

/-- A property survives the loop's five skip tests (`transpiler.ts` lines
229-241): not a prototype member, has a declaration, not function-typed,
not a get-accessor, not privately modified. -/
def keepProp (g : TypeGraph) (p : PropSym) : Bool :=
  !p.isPrototype &&
    match p.declarations.head? with
    | none => false
    | some d =>
      !((g p.typeAtDecl).isObject && (g p.typeAtDecl).isFunctionLike) &&
        !p.isGetAccessor && !d.hasPrivateModifier

/-- The property loop resolves exactly the kept properties, in enumeration
order, echoing each one's name, optionality and `maybeUndefined` test. -/
theorem recurseProps_filter (g : TypeGraph) :
    ∀ ps fuel v rs v', recurseProps g fuel v ps = .ok (rs, v') →
      List.Forall₂ (fun (p : PropSym) (rp : ResolvedProperty IR) =>
          rp.name = p.name ∧ rp.isOptional = p.isOptional ∧
          rp.maybeUndefined = maybeUndef g p.typeAtDecl)
        (ps.filter (keepProp g)) rs := by
  intro ps
  induction ps with
  | nil =>
    intro fuel v rs v' h
    simp only [recurseProps, Except.ok.injEq, Prod.mk.injEq] at h
    rw [← h.1]
    simp
  | cons p rest ih =>
    intro fuel v rs v' h
    simp only [recurseProps] at h
    by_cases h1 : p.isPrototype = true
    · rw [if_pos h1] at h
      have hk : keepProp g p = false := by simp [keepProp, h1]
      simpa [List.filter_cons, hk] using ih _ _ _ _ h
    rw [if_neg h1] at h
    cases hd : p.declarations.head? with
    | none =>
      simp only [hd] at h
      have hk : keepProp g p = false := by simp [keepProp, hd]
      simpa [List.filter_cons, hk] using ih _ _ _ _ h
    | some d =>
      simp only [hd] at h
      by_cases h2 : ((g p.typeAtDecl).isObject && (g p.typeAtDecl).isFunctionLike) = true
      · rw [if_pos h2] at h
        have hk : keepProp g p = false := by simp [keepProp, hd, h2]
        simpa [List.filter_cons, hk] using ih _ _ _ _ h
      rw [if_neg h2] at h
      by_cases h3 : p.isGetAccessor = true
      · rw [if_pos h3] at h
        have hk : keepProp g p = false := by simp [keepProp, hd, h3]
        simpa [List.filter_cons, hk] using ih _ _ _ _ h
      rw [if_neg h3] at h
      by_cases h4 : d.hasPrivateModifier = true
      · rw [if_pos h4] at h
        have hk : keepProp g p = false := by simp [keepProp, hd, h4]
        simpa [List.filter_cons, hk] using ih _ _ _ _ h
      rw [if_neg h4] at h
      have hk : keepProp g p = true := by
        simp only [Bool.not_eq_true] at h1 h2 h3 h4
        simp [keepProp, h1, hd, h2, h3, h4]
      split at h
      next e heq => cases h
      next r v1 heq =>
        split at h
        next e heq2 => cases h
        next rs' v2' heq2 =>
          simp only [Except.ok.injEq, Prod.mk.injEq] at h
          obtain ⟨hrs, hv2⟩ := h
          rw [← hrs]
          have hf : List.filter (keepProp g) (p :: rest) = p :: List.filter (keepProp g) rest := by
            simp [List.filter_cons, hk]
          rw [hf]
          exact List.Forall₂.cons ⟨rfl, rfl, rfl⟩ (ih _ _ _ _ heq2)

/-- Claim C8: an emitted `object(properties, identity)` lists exactly the
properties passing the loop's filters — no prototype member, no
declaration-less property, no property whose type is both object-like and
function-like, no get-accessor, no privately-modified member — in
enumeration order (own properties first, then static exports). -/
theorem object_property_filtering (g : TypeGraph) (fuel : Nat) (v : List Nat) (t : Nat)
    (hd : isObjectDispatch g t = true) (hv : t ∉ v)
    (hidx : getIndexType (g t) = none) (n : Nat)
    (hdecl : (g t).symbolDeclarations = some (n + 1)) :
    ∀ r v', recursion g (fuel + 1) v t = .ok (r, v') →
      ∃ rs, r = .object rs ⟨t, (g t).name⟩ ∧
        List.Forall₂ (fun (p : PropSym) (rp : ResolvedProperty IR) =>
            rp.name = p.name ∧ rp.isOptional = p.isOptional ∧
            rp.maybeUndefined = maybeUndef g p.typeAtDecl)
          ((((g t).propertiesOfType ++ getClassStaticDeclarations (g t)).filter (keepProp g)))
          rs := by
  intro r v' h
  rw [recursion_object_eq g fuel v t hd hv hidx n hdecl] at h
  split at h
  next e heq => cases h
  next rs v2 heq =>
    simp only [Except.ok.injEq, Prod.mk.injEq] at h
    exact ⟨rs, h.1.symm, recurseProps_filter g _ _ _ _ _ heq⟩

theorem object_property_filtering_witness :
    ∃ rs, (IR.object [⟨false, false, "a", .primitive "number"⟩,
        ⟨true, true, "b", .union [.primitive "number"]⟩] ⟨0, "Shape"⟩) =
      .object rs ⟨0, (gW 0).name⟩ ∧
      List.Forall₂ (fun (p : PropSym) (rp : ResolvedProperty IR) =>
          rp.name = p.name ∧ rp.isOptional = p.isOptional ∧
          rp.maybeUndefined = maybeUndef gW p.typeAtDecl)
        ((((gW 0).propertiesOfType ++ getClassStaticDeclarations (gW 0)).filter (keepProp gW)))
        rs := by
  refine object_property_filtering gW 2 [] 0 (by decide) (by decide) (by decide) 0
    (by decide) _ [] ?_
  simp [recursion, recurseProps, recurseList, gW, shapeNode, numberNode, maybeUndefUnionNode,
    undefinedNode, functionNode, defaultNode, protoProp, undeclaredProp, methodProp,
    getterProp, privateProp, aProp, bProp, maybeUndef, isDefined, isUnionBoolean,
    isTrueLiteral, isFalseLiteral, isDate, getIndexType, getClassStaticDeclarations,
    keepProp, vadd, vdelete]

/-- Claim C5: each pass starts from an empty visited set; a successful call
never drops a present id; an ordinary object-like node's id is added before
its property loop and is gone from the set a successful resolution returns;
an indexable-object node's id, once added, is still in the set a successful
resolution returns. -/
theorem visitedSet_per_pass_dynamics (g : TypeGraph) (fuel : Nat) (t : Nat) (v : List Nat) :
    (resolveTypeNode g fuel t = recursion g fuel [] t)
    ∧ (∀ r v', recursion g fuel v t = .ok (r, v') → ∀ i, i ∈ v → i ∈ v')
    ∧ (isObjectDispatch g t = true → t ∉ v → getIndexType (g t) = none →
        ∀ n, (g t).symbolDeclarations = some (n + 1) →
          (recursion g (fuel + 1) v t =
            match recurseProps g fuel (vadd v t)
                ((g t).propertiesOfType ++ getClassStaticDeclarations (g t)) with
            | .error e => .error e
            | .ok (resolvedProperties, v2) =>
              .ok (.object resolvedProperties ⟨t, (g t).name⟩, vdelete v2 t))
          ∧ t ∈ vadd v t
          ∧ ∀ r v', recursion g (fuel + 1) v t = .ok (r, v') → t ∉ v')
    ∧ (isObjectDispatch g t = true → t ∉ v →
        ∀ kind it, getIndexType (g t) = some (kind, it) →
          ∀ r v', recursion g (fuel + 1) v t = .ok (r, v') → t ∈ v') := by
  refine ⟨rfl, (recursion_visited_mono g).1 fuel v t, ?_, ?_⟩
  · intro hdis hv hidx n hdecl
    refine ⟨recursion_object_eq g fuel v t hdis hv hidx n hdecl, mem_vadd_self v t, ?_⟩
    intro r v' h
    rw [recursion_object_eq g fuel v t hdis hv hidx n hdecl] at h
    split at h
    next e heq => cases h
    next rs v2 heq =>
      simp only [Except.ok.injEq, Prod.mk.injEq] at h
      rw [← h.2]
      exact not_mem_vdelete_self v2 t
  · intro hdis hv kind it hidx r v' h
    rw [recursion_indexable_eq g fuel v t hdis hv kind it hidx] at h
    split at h
    next e heq => cases h
    next r1 v1 heq =>
      simp only [Except.ok.injEq, Prod.mk.injEq] at h
      rw [← h.2]
      exact (recursion_visited_mono g).1 fuel (vadd v t) it r1 v1 heq t (mem_vadd_self v t)

theorem visitedSet_per_pass_dynamics_witness :
    (resolveTypeNode gW 3 0 = recursion gW 3 [] 0)
    ∧ (0 ∈ vadd [] 0 ∧ ∀ r v', recursion gW 3 [] 0 = .ok (r, v') → 0 ∉ v')
    ∧ (∀ r v', recursion gW 2 [] 7 = .ok (r, v') → 7 ∈ v') := by
  refine ⟨(visitedSet_per_pass_dynamics gW 3 0 []).1, ?_, ?_⟩
  · have h := (visitedSet_per_pass_dynamics gW 2 0 []).2.2.1 (by decide) (by decide)
      (by decide) 0 (by decide)
    exact ⟨h.2.1, h.2.2⟩
  · exact fun r v' => (visitedSet_per_pass_dynamics gW 1 7 []).2.2.2 (by decide) (by decide)
      .string 1 (by decide) r v'

/-- Claim C10: the array branch recurses on `getTypeArguments(type)[0]`
without an existence check (`transpiler.ts` line 192); under the
precondition that every array node reports at least one type argument, the
missing-element failure is unreachable in every one of the four mutual
functions, so `buildArray` is only ever applied to a resolved element. -/
theorem array_element_access_safe (g : TypeGraph)
    (harr : ∀ i, (g i).isArray = true → (g i).typeArguments ≠ []) :
    (∀ fuel v t, recursion g fuel v t ≠ .error .arrayElementMissing)
    ∧ (∀ fuel v ps, recurseProps g fuel v ps ≠ .error .arrayElementMissing)
    ∧ (∀ fuel v ts, recurseEnum g fuel v ts ≠ .error .arrayElementMissing)
    ∧ (∀ fuel v ts, recurseList g fuel v ts ≠ .error .arrayElementMissing) := by
  apply recursion.mutual_induct g <;> intros
  all_goals intro h
  all_goals simp only [recursion, recurseProps, recurseEnum, recurseList] at h
  all_goals try (simp [*] at h)
  all_goals try (subst h; solve_by_elim)
  all_goals (rename_i ha hn; exact harr _ ha (List.head?_eq_none_iff.mp hn))

theorem array_element_access_safe_witness :
    recursion gW 2 [] 9 ≠ .error .arrayElementMissing := by
  have harr : ∀ i, (gW i).isArray = true → (gW i).typeArguments ≠ [] := by
    intro i
    rcases i with _|_|_|_|_|_|_|_|_|_|_|_|_|i <;>
      simp [gW, shapeNode, numberNode, undefinedNode, trueLitNode, falseLitNode,
        maybeUndefUnionNode, booleanUnionNode, dictNode, noDeclNode, arrayNode,
        selfRefNode, weirdNode, functionNode, defaultNode]
  exact (array_element_access_safe gW harr).1 2 [] 9

/-! ## Termination on cyclic graphs (claim C2)

The spec argues termination from two facts: an object-like node is marked
visited before its children are expanded, and every other category recurses
into structurally smaller children.  The embedding states the second fact
as a ranking function `d` that strictly drops along every edge leaving a
node that is not object-dispatched, and proves that any fuel beyond the
measure `muV` (visited-aware count of unexpanded object nodes, weighted by
the rank bound) suffices. -/

/-- Every node id the resolver may recurse into from node `i`: array/tuple
type arguments, enum/union/intersection members, index signature value
types, and the property types of the property loop. -/
def children (g : TypeGraph) (i : Nat) : List Nat :=
  (g i).typeArguments ++ (g i).types ++ (g i).stringIndexType.toList ++
    (g i).numberIndexType.toList ++
    ((g i).propertiesOfType ++ (g i).symbolExports).map (fun p => p.typeAtDecl)

/-- Reachability along resolver edges. -/
def Reaches (g : TypeGraph) : Nat → Nat → Prop :=
  Relation.ReflTransGen fun a b => b ∈ children g a

/-- The termination measure: unexpanded object-dispatched nodes of the
closed node set `S`, weighted past the rank bound, plus the node's rank. -/
def muV (g : TypeGraph) (S : Finset Nat) (d : Nat → Nat) (D : Nat)
    (v : List Nat) (i : Nat) : Nat :=
  (S.filter fun j => isObjectDispatch g j = true ∧ j ∉ v).card * (D + 1) + d i

theorem muV_antitone (g : TypeGraph) (S : Finset Nat) (d : Nat → Nat) (D : Nat)
    {v v' : List Nat} (hsub : ∀ x, x ∈ v → x ∈ v') (i : Nat) :
    muV g S d D v' i ≤ muV g S d D v i := by
  unfold muV
  refine Nat.add_le_add_right (Nat.mul_le_mul_right _ (Finset.card_le_card ?_)) _
  intro k hk
  simp only [Finset.mem_filter] at *
  exact ⟨hk.1, hk.2.1, fun hv => hk.2.2 (hsub k hv)⟩

theorem muV_lt_of_rank (g : TypeGraph) (S : Finset Nat) (d : Nat → Nat) (D : Nat)
    (v : List Nat) {i j : Nat} (hij : d j < d i) :
    muV g S d D v j < muV g S d D v i :=
  Nat.add_lt_add_left hij _

theorem muV_child_obj (g : TypeGraph) (S : Finset Nat) (d : Nat → Nat) (D : Nat)
    {v : List Nat} {i j : Nat} (hiS : i ∈ S) (hobj : isObjectDispatch g i = true)
    (hv : i ∉ v) (hjD : d j ≤ D) :
    muV g S d D (vadd v i) j < muV g S d D v i := by
  unfold muV
  have hsub : (S.filter fun k => isObjectDispatch g k = true ∧ k ∉ vadd v i) ⊆
      S.filter fun k => isObjectDispatch g k = true ∧ k ∉ v := by
    intro k hk
    simp only [Finset.mem_filter] at *
    exact ⟨hk.1, hk.2.1, fun hv' => hk.2.2 (mem_vadd i hv')⟩
  have hcard : (S.filter fun k => isObjectDispatch g k = true ∧ k ∉ vadd v i).card + 1 ≤
      (S.filter fun k => isObjectDispatch g k = true ∧ k ∉ v).card := by
    refine Finset.card_lt_card ((Finset.ssubset_iff_of_subset hsub).2 ⟨i, ?_, ?_⟩)
    · simp only [Finset.mem_filter]
      exact ⟨hiS, hobj, hv⟩
    · simp only [Finset.mem_filter]
      intro hcon
      exact hcon.2.2 (mem_vadd_self v i)
  have h1 : ((S.filter fun k => isObjectDispatch g k = true ∧ k ∉ vadd v i).card + 1) * (D + 1) ≤
      (S.filter fun k => isObjectDispatch g k = true ∧ k ∉ v).card * (D + 1) :=
    Nat.mul_le_mul_right _ hcard
  rw [Nat.add_mul, Nat.one_mul] at h1
  exact Nat.lt_of_lt_of_le (Nat.add_lt_add_left (Nat.lt_succ_of_le hjD) _)
    (le_trans h1 (Nat.le_add_right _ _))

theorem children_of_typeArguments {g : TypeGraph} {i j : Nat}
    (h : j ∈ (g i).typeArguments) : j ∈ children g i := by
  simp [children, h]

theorem children_of_head {g : TypeGraph} {i j : Nat}
    (h : (g i).typeArguments.head? = some j) : j ∈ children g i := by
  apply children_of_typeArguments
  cases harg : (g i).typeArguments with
  | nil => rw [harg] at h; cases h
  | cons a l => rw [harg] at h; simp at h; simp [h]

theorem children_of_types {g : TypeGraph} {i j : Nat}
    (h : j ∈ (g i).types) : j ∈ children g i := by
  simp [children, h]

theorem children_of_index {g : TypeGraph} {i j : Nat} {kind : IndexKind}
    (h : getIndexType (g i) = some (kind, j)) : j ∈ children g i := by
  unfold getIndexType at h
  cases hs : (g i).stringIndexType with
  | some s => rw [hs] at h; simp at h; simp [children, hs, h.2]
  | none =>
    rw [hs] at h
    cases hn : (g i).numberIndexType with
    | some s => rw [hn] at h; simp at h; simp [children, hn, h.2]
    | none => rw [hn] at h; cases h

theorem children_of_prop {g : TypeGraph} {i : Nat} {p : PropSym}
    (h : p ∈ (g i).propertiesOfType ++ getClassStaticDeclarations (g i)) :
    p.typeAtDecl ∈ children g i := by
  simp only [children, List.mem_append, List.mem_map]
  simp only [getClassStaticDeclarations, List.mem_append] at h
  exact Or.inr ⟨p, by simpa [List.mem_append] using h, rfl⟩

theorem objDispatch_false_of_isArray {g : TypeGraph} {i : Nat}
    (h : (g i).isArray = true) : isObjectDispatch g i = false := by
  simp [isObjectDispatch, h]

theorem objDispatch_false_of_isTuple {g : TypeGraph} {i : Nat}
    (h : (g i).isTuple = true) : isObjectDispatch g i = false := by
  simp [isObjectDispatch, h]

theorem objDispatch_false_of_isEnum {g : TypeGraph} {i : Nat}
    (h : (g i).isEnum = true) : isObjectDispatch g i = false := by
  simp [isObjectDispatch, h]

theorem objDispatch_false_of_not_isObject {g : TypeGraph} {i : Nat}
    (h : ¬(g i).isObject = true) : isObjectDispatch g i = false := by
  simp [isObjectDispatch, h]

theorem recursion_no_fuelOut (g : TypeGraph) (S : Finset Nat) (d : Nat → Nat) (D : Nat)
    (hclosed : ∀ i ∈ S, ∀ j ∈ children g i, j ∈ S)
    (hD : ∀ i ∈ S, d i ≤ D)
    (hrank : ∀ i ∈ S, isObjectDispatch g i = false → ∀ j ∈ children g i, d j < d i) :
    (∀ fuel v t, t ∈ S → muV g S d D v t < fuel → recursion g fuel v t ≠ .error .fuelOut)
    ∧ (∀ fuel v ps, (∀ p ∈ ps, p.typeAtDecl ∈ S) →
        (∀ p ∈ ps, muV g S d D v p.typeAtDecl < fuel) →
        recurseProps g fuel v ps ≠ .error .fuelOut)
    ∧ (∀ fuel v ts, (∀ j ∈ ts, j ∈ S) → (∀ j ∈ ts, muV g S d D v j < fuel) →
        recurseEnum g fuel v ts ≠ .error .fuelOut)
    ∧ (∀ fuel v ts, (∀ j ∈ ts, j ∈ S) → (∀ j ∈ ts, muV g S d D v j < fuel) →
        recurseList g fuel v ts ≠ .error .fuelOut) := by
  apply recursion.mutual_induct g <;> intros
  all_goals intro h
  all_goals simp only [recursion, recurseProps, recurseEnum, recurseList] at h
  all_goals try (simp [*] at h)
  all_goals try omega
  all_goals try (rename_i ih hS hmu; exact ih (fun p hp => hS p (List.mem_cons_of_mem _ hp)) (fun p hp => hmu p (List.mem_cons_of_mem _ hp)) h)
  case case7 =>
    rename_i fuel visited typeId hbig hlit hprim harr element hhead e heq ih hiS hmu
    subst h
    have hch := children_of_head hhead
    have hlt : muV g S d D visited element < fuel := by
      have := muV_lt_of_rank g S d D visited
        (hrank _ hiS (objDispatch_false_of_isArray harr) _ hch)
      omega
    exact ih (hclosed _ hiS _ hch) hlt heq
  case case9 =>
    rename_i fuel visited typeId hbig hlit hprim harr htup e heq ih hiS hmu
    subst h
    refine ih (fun j hj => hclosed _ hiS _ (children_of_typeArguments hj))
      (fun j hj => ?_) heq
    have := muV_lt_of_rank g S d D visited
      (hrank _ hiS (objDispatch_false_of_isTuple htup) _ (children_of_typeArguments hj))
    omega
  case case11 =>
    rename_i fuel visited typeId hbig hlit hprim harr htup henum e heq ih hiS hmu
    subst h
    refine ih (fun j hj => hclosed _ hiS _ (children_of_types hj)) (fun j hj => ?_) heq
    have := muV_lt_of_rank g S d D visited
      (hrank _ hiS (objDispatch_false_of_isEnum henum) _ (children_of_types hj))
    omega
  case case15 =>
    rename_i fuel visited typeId hbig hlit hprim harr htup henum hdate hobj hnv kind
      indexType hidx e heq ih hiS hmu
    subst h
    have hdisp : isObjectDispatch g typeId = true := by
      simp only [Bool.not_eq_true] at hbig hlit hprim harr htup henum hdate
      simp [isObjectDispatch, hbig, hlit, hprim, harr, htup, henum, hdate, hobj]
    have hch := children_of_index hidx
    have hjS := hclosed _ hiS _ hch
    have hlt : muV g S d D (vadd visited typeId) indexType < fuel := by
      have := muV_child_obj g S d D hiS hdisp hnv (hD _ hjS)
      omega
    exact ih hjS hlt heq
  case case19 =>
    rename_i fuel visited typeId hbig hlit hprim harr htup henum hdate hobj hnv hidx n
      hdecl e heq ih hiS hmu
    subst h
    have hdisp : isObjectDispatch g typeId = true := by
      simp only [Bool.not_eq_true] at hbig hlit hprim harr htup henum hdate
      simp [isObjectDispatch, hbig, hlit, hprim, harr, htup, henum, hdate, hobj]
    refine ih (fun p hp => hclosed _ hiS _ (children_of_prop hp)) (fun p hp => ?_) heq
    have := muV_child_obj g S d D hiS hdisp hnv (hD _ (hclosed _ hiS _ (children_of_prop hp)))
    omega
  case case23 =>
    rename_i fuel visited typeId hbig hlit hprim harr htup henum hdate hobj hgen hun hnb
      e heq ih hiS hmu
    subst h
    refine ih (fun j hj => hclosed _ hiS _ (children_of_types (List.mem_of_mem_filter hj)))
      (fun j hj => ?_) heq
    have := muV_lt_of_rank g S d D visited
      (hrank _ hiS (objDispatch_false_of_not_isObject hobj) _
        (children_of_types (List.mem_of_mem_filter hj)))
    omega
  case case25 =>
    rename_i fuel visited typeId hbig hlit hprim harr htup henum hdate hobj hgen hun hint
      e heq ih hiS hmu
    subst h
    refine ih (fun j hj => hclosed _ hiS _ (children_of_types hj)) (fun j hj => ?_) heq
    have := muV_lt_of_rank g S d D visited
      (hrank _ hiS (objDispatch_false_of_not_isObject hobj) _ (children_of_types hj))
    omega
  case case34 =>
    rename_i e heq ih hS hmu
    subst h
    exact ih (hS _ (List.mem_cons_self _ _)) (hmu _ (List.mem_cons_self _ _)) heq
  case case35 =>
    rename_i hok e heq ihHead ihTail hS hmu
    subst h
    have hmono := (recursion_visited_mono g).1 _ _ _ _ _ hok
    refine ihTail (fun p hp => hS p (List.mem_cons_of_mem _ hp)) (fun p hp => ?_) heq
    have h1 := muV_antitone g S d D (fun x hx => hmono x hx) p.typeAtDecl
    have h2 := hmu p (List.mem_cons_of_mem _ hp)
    omega
  case case38 =>
    rename_i e heq ih hS hmu
    subst h
    exact ih (hS _ (List.mem_cons_self _ _)) (hmu _ (List.mem_cons_self _ _)) heq
  case case39 =>
    rename_i hok e heq ihHead ihTail hS hmu
    subst h
    have hmono := (recursion_visited_mono g).1 _ _ _ _ _ hok
    refine ihTail (fun j hj => hS j (List.mem_cons_of_mem _ hj)) (fun j hj => ?_) heq
    have h1 := muV_antitone g S d D (fun x hx => hmono x hx) j
    have h2 := hmu j (List.mem_cons_of_mem _ hj)
    omega
  case case42 =>
    rename_i e heq ih hS hmu
    subst h
    exact ih (hS _ (List.mem_cons_self _ _)) (hmu _ (List.mem_cons_self _ _)) heq
  case case43 =>
    rename_i hok e heq ihHead ihTail hS hmu
    subst h
    have hmono := (recursion_visited_mono g).1 _ _ _ _ _ hok
    refine ihTail (fun j hj => hS j (List.mem_cons_of_mem _ hj)) (fun j hj => ?_) heq
    have h1 := muV_antitone g S d D (fun x hx => hmono x hx) j
    have h2 := hmu j (List.mem_cons_of_mem _ hj)
    omega


mutual

/-- Number of `object(...)` builds carrying id `i` inside an IR value. -/
def objBuildCount (i : Nat) : IR → Nat
  | .array r => objBuildCount i r
  | .tuple rs => listObjBuildCount i rs
  | .union rs => listObjBuildCount i rs
  | .intersection rs => listObjBuildCount i rs
  | .enum ms => enumObjBuildCount i ms
  | .object props idn => (if idn.id = i then 1 else 0) + propsObjBuildCount i props
  | .indexableObject r _ => objBuildCount i r
  | _ => 0

def listObjBuildCount (i : Nat) : List IR → Nat
  | [] => 0
  | r :: rs => objBuildCount i r + listObjBuildCount i rs

def enumObjBuildCount (i : Nat) : List (String × IR) → Nat
  | [] => 0
  | (_, r) :: rs => objBuildCount i r + enumObjBuildCount i rs

def propsObjBuildCount (i : Nat) : List (ResolvedProperty IR) → Nat
  | [] => 0
  | p :: ps => objBuildCount i p.resolvedType + propsObjBuildCount i ps

end

theorem recursion_noObjBuild_of_visited (g : TypeGraph) :
    (∀ fuel v t r v', recursion g fuel v t = .ok (r, v') → ∀ i, i ∈ v → objBuildCount i r = 0)
    ∧ (∀ fuel v ps rs v', recurseProps g fuel v ps = .ok (rs, v') → ∀ i, i ∈ v →
        propsObjBuildCount i rs = 0)
    ∧ (∀ fuel v ts rs v', recurseEnum g fuel v ts = .ok (rs, v') → ∀ i, i ∈ v →
        enumObjBuildCount i rs = 0)
    ∧ (∀ fuel v ts rs v', recurseList g fuel v ts = .ok (rs, v') → ∀ i, i ∈ v →
        listObjBuildCount i rs = 0) := by
  apply recursion.mutual_induct g <;> intros
  all_goals rename_i h i hi
  all_goals simp only [recursion, recurseProps, recurseEnum, recurseList] at h
  all_goals try (simp [*] at h)
  all_goals try (obtain ⟨rfl, rfl⟩ := h.symm; simp [objBuildCount, listObjBuildCount, enumObjBuildCount, propsObjBuildCount])
  all_goals try solve_by_elim [mem_vadd]
  all_goals first
  | (rename_i hnv hidx hdecl; exact fun he => hnv (he ▸ hi))
  | (rename_i hnv hidx n hdecl rs v2 hok ih; exact ⟨fun he => hnv (he ▸ hi), ih _ _ hok i (mem_vadd _ hi)⟩)
  | (rename_i r1 v1 hok1 rs v2 hok2 ihHead ihTail; exact ⟨ihHead _ _ hok1 i hi, ihTail _ _ hok2 i ((recursion_visited_mono g).1 _ _ _ _ _ hok1 i hi)⟩)

/-- Claim C2: on a type graph closed over a finite node set whose non-object
dispatched edges strictly decrease a ranking (the spec's "structurally
smaller children"), resolution of the root terminates even when an
object-like node is reachable from itself; re-entering such a node while it
is still marked visited yields exactly `reference(identity)`; and when the
root itself is the cyclic ordinary object node, a successful resolution
contains exactly one `object(...)` build carrying its id, the recursive
occurrence having become a reference. -/
theorem cyclic_object_resolution_terminates
    (g : TypeGraph) (S : Finset Nat) (d : Nat → Nat) (D : Nat) (root c : Nat)
    (hroot : root ∈ S)
    (hclosed : ∀ i ∈ S, ∀ j ∈ children g i, j ∈ S)
    (hD : ∀ i ∈ S, d i ≤ D)
    (hrank : ∀ i ∈ S, isObjectDispatch g i = false → ∀ j ∈ children g i, d j < d i)
    (hcyc : c ∈ S ∧ isObjectDispatch g c = true ∧ ∃ j ∈ children g c, Reaches g j c) :
    (∃ fuel, recursion g fuel [] root ≠ .error .fuelOut)
    ∧ (∀ fuel v, c ∈ v →
        recursion g (fuel + 1) v c = .ok (.reference ⟨c, (g c).name⟩, v))
    ∧ (root = c → getIndexType (g root) = none →
        ∀ n, (g root).symbolDeclarations = some (n + 1) →
        ∀ fuel r v', recursion g fuel [] root = .ok (r, v') →
          ∃ props, r = .object props ⟨root, (g root).name⟩ ∧
            objBuildCount root r = 1) := by
  refine ⟨?_, ?_, ?_⟩
  · exact ⟨muV g S d D [] root + 1,
      (recursion_no_fuelOut g S d D hclosed hD hrank).1 _ [] root hroot (Nat.lt_succ_self _)⟩
  · intro fuel v hv
    exact recursion_reference_eq g fuel v c hcyc.2.1 hv
  · intro hrc hidx n hdecl fuel r v' h
    subst hrc
    cases fuel with
    | zero => simp [recursion] at h
    | succ fuel =>
      rw [recursion_object_eq g fuel [] root hcyc.2.1 (by simp) hidx n hdecl] at h
      split at h
      next e heq => cases h
      next rs v2 heq =>
        simp only [Except.ok.injEq, Prod.mk.injEq] at h
        refine ⟨rs, h.1.symm, ?_⟩
        rw [← h.1]
        simp only [objBuildCount]
        have h0 : propsObjBuildCount root rs = 0 :=
          (recursion_noObjBuild_of_visited g).2.1 _ _ _ _ _ heq root (mem_vadd_self [] root)
        simp [h0]

theorem cyclic_object_resolution_terminates_witness :
    (∃ fuel, recursion gW fuel [] 10 ≠ .error .fuelOut)
    ∧ recursion gW 1 [10] 10 = .ok (.reference ⟨10, "Node"⟩, [10])
    ∧ (∃ props, (IR.object [⟨false, false, "value", .primitive "number"⟩,
          ⟨true, false, "next", .reference ⟨10, "Node"⟩⟩] ⟨10, "Node"⟩) =
        .object props ⟨10, (gW 10).name⟩ ∧
        objBuildCount 10 (IR.object [⟨false, false, "value", .primitive "number"⟩,
          ⟨true, false, "next", .reference ⟨10, "Node"⟩⟩] ⟨10, "Node"⟩) = 1) := by
  have h := cyclic_object_resolution_terminates gW {10, 1} (fun _ => 0) 0 10 10
    (by decide) (by decide) (by decide) (by decide)
    ⟨by decide, by decide, 10, by decide, Relation.ReflTransGen.refl⟩
  refine ⟨h.1, h.2.1 0 [10] (by decide), ?_⟩
  refine h.2.2 rfl (by decide) 0 (by decide) 3 _ [] ?_
  simp [recursion, recurseProps, gW, selfRefNode, numberNode, defaultNode, isDate,
    maybeUndef, vadd, vdelete, getIndexType, getClassStaticDeclarations]

end Transpiler
